import Mathlib

/-
  Verification of the psarc_unpacker core against its specification.

  The Rust sources (src/psarc.rs, src/decryptor.rs, src/models.rs) are
  shallowly embedded below.  Byte streams are `List Nat` (each element a
  byte value); machine integers are modelled as `Nat` bit patterns with
  explicit modular arithmetic where overflow matters.  Fallible reads
  return `Except ErrKind`, mirroring the `io::Result` error kinds the
  source constructs; operations that can panic in Rust (index out of
  bounds, unsigned-subtraction underflow, division by zero) return a
  `Res` value with a distinguished `panicked` outcome.  Third-party
  library calls (flate2 Deflate/Zlib decompression, AES decryption) are
  taken as function parameters, since their code is not part of this
  repository.
-/

namespace Psarc

/-- A byte stream: each element is one byte (a value below 256). -/
abbrev Bytes := List Nat

/-- Error kinds. These model the `io::ErrorKind` values constructed by the
source: `truncated` is `UnexpectedEof` (from `read_exact` hitting end of
stream), `malformed` is `InvalidData` used for structural violations,
`unsupportedBlockWidth` is the `InvalidData("Unsupported block size base")`
error, `notSng` the `InvalidData("Not a valid sng file")` error,
`invalidInput` the `InvalidInput` error from `unzip_block`, and
`decompressFailure` an error reported by the Deflate/Zlib backend. -/
inductive ErrKind where
  | truncated
  | malformed
  | unsupportedBlockWidth
  | notSng
  | invalidInput
  | decompressFailure
  | other
deriving DecidableEq, Repr

/-- Outcome of an operation that may also panic (Rust index-out-of-bounds,
unsigned-subtraction underflow or division by zero in a debug build). -/
inductive Res (α : Type) where
  | ok (a : α)
  | err (e : ErrKind)
  | panicked
deriving DecidableEq, Repr

/-- A reader consumes a prefix of a byte stream and returns a value plus
the remaining stream, or an error. Models functions of shape
`fn read_from<R: Read>(reader: &mut R) -> io::Result<T>`. -/
abbrev Reader (α : Type) := Bytes → Except ErrKind (α × Bytes)

/-- Models `Read::read_exact` into an `n`-byte buffer: returns the first
`n` bytes and the rest, or `UnexpectedEof` when fewer than `n` remain. -/
def readExact (s : Bytes) (n : Nat) : Except ErrKind (Bytes × Bytes) :=
  if n ≤ s.length then Except.ok (s.take n, s.drop n) else Except.error ErrKind.truncated

/-- Big-endian value of a byte list (most significant byte first). -/
def beVal (l : Bytes) : Nat := l.foldl (fun acc b => acc * 256 + b) 0

/-- Little-endian value of a byte list (least significant byte first). -/
def leVal (l : Bytes) : Nat := l.foldr (fun b acc => acc * 256 + b) 0

/-- Reads `n` bytes and interprets them big-endian; models the
`byteorder::BigEndian` fixed-width reads used by the source. -/
def read_be (n : Nat) : Reader Nat := fun s =>
  match readExact s n with
  | Except.error e => Except.error e
  | Except.ok (buf, rest) => Except.ok (beVal buf, rest)

/-- Reads `n` bytes and interprets them little-endian; models the
`byteorder::LittleEndian` fixed-width reads used by the source. -/
def read_le (n : Nat) : Reader Nat := fun s =>
  match readExact s n with
  | Except.error e => Except.error e
  | Except.ok (buf, rest) => Except.ok (leVal buf, rest)

/-- Models `reader.read_u8()`. -/
def read_u8 : Reader Nat := read_le 1

/-- Models `reader.read_u16::<BigEndian>()`. -/
def read_u16_be : Reader Nat := read_be 2

/-- Models `reader.read_u32::<BigEndian>()`. -/
def read_u32_be : Reader Nat := read_be 4

/-- Models `reader.read_u16::<LittleEndian>()`. -/
def read_u16_le : Reader Nat := read_le 2

/-- Models `reader.read_u32::<LittleEndian>()`. -/
def read_u32_le : Reader Nat := read_le 4

/-- Models `reader.read_i16::<LittleEndian>()`; the value is kept as its
unsigned 16-bit pattern. -/
def read_i16_le : Reader Nat := read_le 2

/-- Models `reader.read_i32::<LittleEndian>()`; the value is kept as its
unsigned 32-bit pattern. -/
def read_i32_le : Reader Nat := read_le 4

/-- Models `reader.read_f32::<LittleEndian>()`; the value is kept as its
raw 32-bit pattern (IEEE-754 interpretation is never needed: the source
only moves these values, it never computes with them). -/
def read_f32_le : Reader Nat := read_le 4

/-- Models `reader.read_f64::<LittleEndian>()`; raw 64-bit pattern. -/
def read_f64_le : Reader Nat := read_le 8

/-- Embeds `read_u40_be` from src/psarc.rs lines 119-128: reads a 5-byte
buffer and assembles `(buf[0]<<32)|(buf[1]<<24)|(buf[2]<<16)|(buf[3]<<8)|buf[4]`. -/
def read_u40_be : Reader Nat := fun s =>
  match readExact s 5 with
  | Except.error e => Except.error e
  | Except.ok (buf, rest) =>
      Except.ok ((buf.getD 0 0) <<< 32 ||| (buf.getD 1 0) <<< 24 |||
        (buf.getD 2 0) <<< 16 ||| (buf.getD 3 0) <<< 8 ||| buf.getD 4 0, rest)

/-- Embeds `read_u24_be` from src/psarc.rs lines 131-138: reads a 3-byte
buffer and assembles `(buf[0]<<16)|(buf[1]<<8)|buf[2]`. -/
def read_u24_be : Reader Nat := fun s =>
  match readExact s 3 with
  | Except.error e => Except.error e
  | Except.ok (buf, rest) =>
      Except.ok ((buf.getD 0 0) <<< 16 ||| (buf.getD 1 0) <<< 8 ||| buf.getD 2 0, rest)

/-- Embeds `read_fixed_string` from src/models.rs lines 11-17: reads exactly
`size` bytes and keeps the prefix before the first zero byte. The UTF-8
lossy decoding of the source is not modelled; the string is kept as its
raw bytes (decoding never fails and never changes the byte prefix taken). -/
def read_fixed_string (size : Nat) : Reader Bytes := fun s =>
  match readExact s size with
  | Except.error e => Except.error e
  | Except.ok (buf, rest) => Except.ok (buf.takeWhile (fun b => b != 0), rest)

/-- Reads `n` consecutive records with the element reader `f`; the loop
body of `read_vec` and of the fixed-size array reads in src/models.rs. -/
def read_count {α : Type} : Nat → Reader α → Reader (List α)
  | 0, _ => fun s => Except.ok ([], s)
  | n + 1, f => fun s =>
      match f s with
      | Except.error e => Except.error e
      | Except.ok (a, s1) =>
          match read_count n f s1 with
          | Except.error e => Except.error e
          | Except.ok (xs, s2) => Except.ok (a :: xs, s2)

/-- Embeds `read_vec` from src/models.rs lines 21-36: reads a u32
little-endian count, then that many records. The source's `if count < 0`
guard (returning `InvalidData`, i.e. `malformed`) is kept literally; it
can never fire because `count` is unsigned. -/
def read_vec {α : Type} (f : Reader α) : Reader (List α) := fun s =>
  match read_u32_le s with
  | Except.error e => Except.error e
  | Except.ok (count, s1) =>
      if count < 0 then Except.error ErrKind.malformed
      else read_count count f s1

/-- Embeds `read_vec_of_f32` from src/models.rs lines 39-45 (count given
by the caller, not read from the stream). -/
def read_vec_of_f32 (count : Nat) : Reader (List Nat) := read_count count read_f32_le

/-- Embeds `read_vec_of_i32` from src/models.rs lines 48-54. -/
def read_vec_of_i32 (count : Nat) : Reader (List Nat) := read_count count read_i32_le

/-- Models Rust's `i32 as usize` cast on a 32-bit pattern `v`: values with
the sign bit set are sign-extended to 64 bits. -/
def i32_as_usize (v : Nat) : Nat := if v < 2 ^ 31 then v else 2 ^ 64 - 2 ^ 32 + v

/-- Models the iteration count of Rust's `for _ in 0..n` where `n : i32`
holds the 32-bit pattern `v`: a negative bound yields an empty range. -/
def i32_loop_iters (v : Nat) : Nat := if v < 2 ^ 31 then v else 0

/-
  SNG record schema (src/models.rs). Every numeric field is stored as its
  raw little-endian bit pattern (a `Nat`); fixed-length strings are kept
  as their zero-terminated byte prefix; fixed-size arrays become lists.
-/

/-- Record `Action`: f32 time, char[256] action_name. -/
structure Action where
  time : Nat
  action_name : Bytes

/-- Embeds `Action::read_from` (src/models.rs). -/
def Action.read_from : Reader Action := fun s => do
  let (time, s) ← read_f32_le s
  let (action_name, s) ← read_fixed_string 256 s
  return (⟨time, action_name⟩, s)

/-- Record `Anchor`. -/
structure Anchor where
  start_beat_time : Nat
  end_beat_time : Nat
  unk3_first_note_time : Nat
  unk4_last_note_time : Nat
  fret_id : Nat
  padding : Bytes
  width : Nat
  phrase_iteration_id : Nat

/-- Embeds `Anchor::read_from` (src/models.rs). -/
def Anchor.read_from : Reader Anchor := fun s => do
  let (a1, s) ← read_f32_le s
  let (a2, s) ← read_f32_le s
  let (a3, s) ← read_f32_le s
  let (a4, s) ← read_f32_le s
  let (fret_id, s) ← read_u8 s
  let (padding, s) ← readExact s 3
  let (width, s) ← read_i32_le s
  let (pid, s) ← read_i32_le s
  return (⟨a1, a2, a3, a4, fret_id, padding, width, pid⟩, s)

/-- Record `AnchorExtension`. -/
structure AnchorExtension where
  beat_time : Nat
  fret_id : Nat
  unk2_0 : Nat
  unk3_0 : Nat
  unk4_0 : Nat

/-- Embeds `AnchorExtension::read_from` (src/models.rs). -/
def AnchorExtension.read_from : Reader AnchorExtension := fun s => do
  let (beat_time, s) ← read_f32_le s
  let (fret_id, s) ← read_u8 s
  let (u2, s) ← read_i32_le s
  let (u3, s) ← read_i16_le s
  let (u4, s) ← read_u8 s
  return (⟨beat_time, fret_id, u2, u3, u4⟩, s)

/-- Record `Fingerprint`. -/
structure Fingerprint where
  chord_id : Nat
  start_time : Nat
  end_time : Nat
  unk3_first_note_time : Nat
  unk4_last_note_time : Nat

/-- Embeds `Fingerprint::read_from` (src/models.rs). -/
def Fingerprint.read_from : Reader Fingerprint := fun s => do
  let (chord_id, s) ← read_i32_le s
  let (t1, s) ← read_f32_le s
  let (t2, s) ← read_f32_le s
  let (t3, s) ← read_f32_le s
  let (t4, s) ← read_f32_le s
  return (⟨chord_id, t1, t2, t3, t4⟩, s)

/-- Record `BendData32`. -/
structure BendData32 where
  time : Nat
  step : Nat
  unk3_0 : Nat
  unk4_0 : Nat
  unk5 : Nat

/-- Embeds `BendData32::read_from` (src/models.rs). -/
def BendData32.read_from : Reader BendData32 := fun s => do
  let (time, s) ← read_f32_le s
  let (step, s) ← read_f32_le s
  let (u3, s) ← read_i16_le s
  let (u4, s) ← read_u8 s
  let (u5, s) ← read_u8 s
  return (⟨time, step, u3, u4, u5⟩, s)

/-- Record `BendData`: 32 inline `BendData32` records plus a used count. -/
structure BendData where
  bend_data : List BendData32
  used_count : Nat

/-- Embeds `BendData::read_from` (src/models.rs). -/
def BendData.read_from : Reader BendData := fun s => do
  let (arr, s) ← read_count 32 BendData32.read_from s
  let (used_count, s) ← read_i32_le s
  return (⟨arr, used_count⟩, s)

/-- Record `Note`; its trailing `BendData32` array is length-prefixed by
an i32 count cast to usize. -/
structure Note where
  note_mask : Nat
  note_flags : Nat
  hash : Nat
  time : Nat
  string_index : Nat
  fret_id : Nat
  anchor_fret_id : Nat
  anchor_width : Nat
  chord_id : Nat
  chord_notes_id : Nat
  phrase_id : Nat
  phrase_iteration_id : Nat
  finger_print_id : List Nat
  next_iter_note : Nat
  prev_iter_note : Nat
  parent_prev_note : Nat
  slide_to : Nat
  slide_unpitch_to : Nat
  left_hand : Nat
  tap : Nat
  pick_direction : Nat
  slap : Nat
  pluck : Nat
  vibrato : Nat
  sustain : Nat
  max_bend : Nat
  bend_data : List BendData32

/-- Embeds `Note::read_from` (src/models.rs); the bend-data count is an
i32 read from the stream and cast `as usize`. -/
def Note.read_from : Reader Note := fun s => do
  let (note_mask, s) ← read_u32_le s
  let (note_flags, s) ← read_u32_le s
  let (hash, s) ← read_u32_le s
  let (time, s) ← read_f32_le s
  let (string_index, s) ← read_u8 s
  let (fret_id, s) ← read_u8 s
  let (anchor_fret_id, s) ← read_u8 s
  let (anchor_width, s) ← read_u8 s
  let (chord_id, s) ← read_i32_le s
  let (chord_notes_id, s) ← read_i32_le s
  let (phrase_id, s) ← read_i32_le s
  let (phrase_iteration_id, s) ← read_i32_le s
  let (finger_print_id, s) ← read_count 2 read_i16_le s
  let (next_iter_note, s) ← read_i16_le s
  let (prev_iter_note, s) ← read_i16_le s
  let (parent_prev_note, s) ← read_i16_le s
  let (slide_to, s) ← read_u8 s
  let (slide_unpitch_to, s) ← read_u8 s
  let (left_hand, s) ← read_u8 s
  let (tap, s) ← read_u8 s
  let (pick_direction, s) ← read_u8 s
  let (slap, s) ← read_u8 s
  let (pluck, s) ← read_u8 s
  let (vibrato, s) ← read_i16_le s
  let (sustain, s) ← read_f32_le s
  let (max_bend, s) ← read_f32_le s
  let (bend_data_count, s) ← read_i32_le s
  let (bend_data, s) ← read_count (i32_as_usize bend_data_count) BendData32.read_from s
  return (⟨note_mask, note_flags, hash, time, string_index, fret_id, anchor_fret_id,
    anchor_width, chord_id, chord_notes_id, phrase_id, phrase_iteration_id,
    finger_print_id, next_iter_note, prev_iter_note, parent_prev_note, slide_to,
    slide_unpitch_to, left_hand, tap, pick_direction, slap, pluck, vibrato,
    sustain, max_bend, bend_data⟩, s)

/-- Record `Bpm`. -/
structure Bpm where
  time : Nat
  measure : Nat
  beat : Nat
  phrase_iteration : Nat
  mask : Nat

/-- Embeds `Bpm::read_from` (src/models.rs). -/
def Bpm.read_from : Reader Bpm := fun s => do
  let (time, s) ← read_f32_le s
  let (measure, s) ← read_i16_le s
  let (beat, s) ← read_i16_le s
  let (phrase_iteration, s) ← read_i32_le s
  let (mask, s) ← read_i32_le s
  return (⟨time, measure, beat, phrase_iteration, mask⟩, s)

/-- Record `Chord`. -/
structure Chord where
  mask : Nat
  frets : Bytes
  fingers : Bytes
  notes : List Nat
  name : Bytes

/-- Embeds `Chord::read_from` (src/models.rs). -/
def Chord.read_from : Reader Chord := fun s => do
  let (mask, s) ← read_u32_le s
  let (frets, s) ← readExact s 6
  let (fingers, s) ← readExact s 6
  let (notes, s) ← read_count 6 read_i32_le s
  let (name, s) ← read_fixed_string 32 s
  return (⟨mask, frets, fingers, notes, name⟩, s)

/-- Record `ChordNotes`. -/
structure ChordNotes where
  note_mask : List Nat
  bend_data : List BendData
  slide_to : Bytes
  slide_unpitch_to : Bytes
  vibrato : List Nat

/-- Embeds `ChordNotes::read_from` (src/models.rs). -/
def ChordNotes.read_from : Reader ChordNotes := fun s => do
  let (note_mask, s) ← read_count 6 read_i32_le s
  let (bend_data, s) ← read_count 6 BendData.read_from s
  let (slide_to, s) ← readExact s 6
  let (slide_unpitch_to, s) ← readExact s 6
  let (vibrato, s) ← read_count 6 read_i16_le s
  return (⟨note_mask, bend_data, slide_to, slide_unpitch_to, vibrato⟩, s)

/-- Record `Dna`. -/
structure Dna where
  time : Nat
  dna_id : Nat

/-- Embeds `Dna::read_from` (src/models.rs). -/
def Dna.read_from : Reader Dna := fun s => do
  let (time, s) ← read_f32_le s
  let (dna_id, s) ← read_i32_le s
  return (⟨time, dna_id⟩, s)

/-- Record `Event`: f32 time, char[256] event_name. -/
structure Event where
  time : Nat
  event_name : Bytes

/-- Embeds `Event::read_from` (src/models.rs). -/
def Event.read_from : Reader Event := fun s => do
  let (time, s) ← read_f32_le s
  let (event_name, s) ← read_fixed_string 256 s
  return (⟨time, event_name⟩, s)

/-- Record `Metadata`; the tuning array is read with `for _ in 0..string_count`
over the i32 `string_count`. -/
structure Metadata where
  max_score : Nat
  max_notes_and_chords : Nat
  max_notes_and_chords_real : Nat
  points_per_note : Nat
  first_beat_length : Nat
  start_time : Nat
  capo_fret_id : Nat
  last_conversion_date_time : Bytes
  part : Nat
  song_length : Nat
  string_count : Nat
  tuning : List Nat
  unk11_first_note_time : Nat
  unk12_first_note_time : Nat
  max_difficulty : Nat

/-- Embeds `Metadata::read_from` (src/models.rs). -/
def Metadata.read_from : Reader Metadata := fun s => do
  let (max_score, s) ← read_f64_le s
  let (mnac, s) ← read_f64_le s
  let (mnacr, s) ← read_f64_le s
  let (ppn, s) ← read_f64_le s
  let (fbl, s) ← read_f32_le s
  let (start_time, s) ← read_f32_le s
  let (capo_fret_id, s) ← read_u8 s
  let (lcdt, s) ← read_fixed_string 32 s
  let (part, s) ← read_i16_le s
  let (song_length, s) ← read_f32_le s
  let (string_count, s) ← read_i32_le s
  let (tuning, s) ← read_count (i32_loop_iters string_count) read_i16_le s
  let (u11, s) ← read_f32_le s
  let (u12, s) ← read_f32_le s
  let (max_difficulty, s) ← read_i32_le s
  return (⟨max_score, mnac, mnacr, ppn, fbl, start_time, capo_fret_id, lcdt, part,
    song_length, string_count, tuning, u11, u12, max_difficulty⟩, s)

/-- Record `NLinkedDifficulty`; the inner array length is the preceding
`phrase_count` field cast `as usize`. -/
structure NLinkedDifficulty where
  level_break : Nat
  phrase_count : Nat
  nld_phrase : List Nat

/-- Embeds `NLinkedDifficulty::read_from` (src/models.rs). -/
def NLinkedDifficulty.read_from : Reader NLinkedDifficulty := fun s => do
  let (level_break, s) ← read_i32_le s
  let (phrase_count, s) ← read_i32_le s
  let (nld_phrase, s) ← read_vec_of_i32 (i32_as_usize phrase_count) s
  return (⟨level_break, phrase_count, nld_phrase⟩, s)

/-- Record `Phrase`. -/
structure Phrase where
  solo : Nat
  disparity : Nat
  ignore : Nat
  padding : Nat
  max_difficulty : Nat
  phrase_iteration_links : Nat
  name : Bytes

/-- Embeds `Phrase::read_from` (src/models.rs). -/
def Phrase.read_from : Reader Phrase := fun s => do
  let (solo, s) ← read_u8 s
  let (disparity, s) ← read_u8 s
  let (ign, s) ← read_u8 s
  let (padding, s) ← read_u8 s
  let (max_difficulty, s) ← read_i32_le s
  let (links, s) ← read_i32_le s
  let (name, s) ← read_fixed_string 32 s
  return (⟨solo, disparity, ign, padding, max_difficulty, links, name⟩, s)

/-- Record `PhraseExtraInfoByLevel`. -/
structure PhraseExtraInfoByLevel where
  phrase_id : Nat
  difficulty : Nat
  empty : Nat
  level_jump : Nat
  redundant : Nat
  padding : Nat

/-- Embeds `PhraseExtraInfoByLevel::read_from` (src/models.rs). -/
def PhraseExtraInfoByLevel.read_from : Reader PhraseExtraInfoByLevel := fun s => do
  let (phrase_id, s) ← read_i32_le s
  let (difficulty, s) ← read_i32_le s
  let (empty, s) ← read_i32_le s
  let (level_jump, s) ← read_u8 s
  let (redundant, s) ← read_i16_le s
  let (padding, s) ← read_u8 s
  return (⟨phrase_id, difficulty, empty, level_jump, redundant, padding⟩, s)

/-- Record `PhraseIteration`. -/
structure PhraseIteration where
  phrase_id : Nat
  start_time : Nat
  next_phrase_time : Nat
  difficulty : List Nat

/-- Embeds `PhraseIteration::read_from` (src/models.rs). -/
def PhraseIteration.read_from : Reader PhraseIteration := fun s => do
  let (phrase_id, s) ← read_i32_le s
  let (start_time, s) ← read_f32_le s
  let (next_phrase_time, s) ← read_f32_le s
  let (difficulty, s) ← read_count 3 read_i32_le s
  return (⟨phrase_id, start_time, next_phrase_time, difficulty⟩, s)

/-- Record `Section`. -/
structure Section where
  name : Bytes
  number : Nat
  start_time : Nat
  end_time : Nat
  start_phrase_iteration_id : Nat
  end_phrase_iteration_id : Nat
  string_mask : Bytes

/-- Embeds `Section::read_from` (src/models.rs). -/
def Section.read_from : Reader Section := fun s => do
  let (name, s) ← read_fixed_string 32 s
  let (number, s) ← read_i32_le s
  let (start_time, s) ← read_f32_le s
  let (end_time, s) ← read_f32_le s
  let (spid, s) ← read_i32_le s
  let (epid, s) ← read_i32_le s
  let (string_mask, s) ← read_fixed_string 36 s
  return (⟨name, number, start_time, end_time, spid, epid, string_mask⟩, s)

/-- Record `Rect`. -/
structure Rect where
  y_min : Nat
  x_min : Nat
  y_max : Nat
  x_max : Nat

/-- Embeds `Rect::read_from` (src/models.rs). -/
def Rect.read_from : Reader Rect := fun s => do
  let (y_min, s) ← read_f32_le s
  let (x_min, s) ← read_f32_le s
  let (y_max, s) ← read_f32_le s
  let (x_max, s) ← read_f32_le s
  return (⟨y_min, x_min, y_max, x_max⟩, s)

/-- Record `SymbolDefinition`. -/
structure SymbolDefinition where
  text : Bytes
  rect_outter : Rect
  rect_inner : Rect

/-- Embeds `SymbolDefinition::read_from` (src/models.rs). -/
def SymbolDefinition.read_from : Reader SymbolDefinition := fun s => do
  let (text, s) ← read_fixed_string 12 s
  let (rect_outter, s) ← Rect.read_from s
  let (rect_inner, s) ← Rect.read_from s
  return (⟨text, rect_outter, rect_inner⟩, s)

/-- Record `SymbolsHeader`. -/
structure SymbolsHeader where
  unk1 : Nat
  unk2 : Nat
  unk3 : Nat
  unk4 : Nat
  unk5 : Nat
  unk6 : Nat
  unk7 : Nat
  unk8 : Nat

/-- Embeds `SymbolsHeader::read_from` (src/models.rs). -/
def SymbolsHeader.read_from : Reader SymbolsHeader := fun s => do
  let (u1, s) ← read_i32_le s
  let (u2, s) ← read_i32_le s
  let (u3, s) ← read_i32_le s
  let (u4, s) ← read_i32_le s
  let (u5, s) ← read_i32_le s
  let (u6, s) ← read_i32_le s
  let (u7, s) ← read_i32_le s
  let (u8, s) ← read_i32_le s
  return (⟨u1, u2, u3, u4, u5, u6, u7, u8⟩, s)

/-- Record `SymbolsTexture`. -/
structure SymbolsTexture where
  font : Bytes
  fontpath_length : Nat
  unk1_0 : Nat
  width : Nat
  height : Nat

/-- Embeds `SymbolsTexture::read_from` (src/models.rs). -/
def SymbolsTexture.read_from : Reader SymbolsTexture := fun s => do
  let (font, s) ← read_fixed_string 128 s
  let (fontpath_length, s) ← read_i32_le s
  let (u1, s) ← read_i32_le s
  let (width, s) ← read_i32_le s
  let (height, s) ← read_i32_le s
  return (⟨font, fontpath_length, u1, width, height⟩, s)

/-- Record `Tone`. -/
structure Tone where
  time : Nat
  tone_id : Nat

/-- Embeds `Tone::read_from` (src/models.rs). -/
def Tone.read_from : Reader Tone := fun s => do
  let (time, s) ← read_f32_le s
  let (tone_id, s) ← read_i32_le s
  return (⟨time, tone_id⟩, s)

/-- Record `Vocal`. -/
structure Vocal where
  time : Nat
  note : Nat
  length : Nat
  lyric : Bytes

/-- Embeds `Vocal::read_from` (src/models.rs). -/
def Vocal.read_from : Reader Vocal := fun s => do
  let (time, s) ← read_f32_le s
  let (note, s) ← read_i32_le s
  let (length, s) ← read_f32_le s
  let (lyric, s) ← read_fixed_string 48 s
  return (⟨time, note, length, lyric⟩, s)

/-- Record `Arrangement`. -/
structure Arrangement where
  difficulty : Nat
  anchors : List Anchor
  anchor_extensions : List AnchorExtension
  fingerprints1 : List Fingerprint
  fingerprints2 : List Fingerprint
  notes : List Note
  phrase_count : Nat
  average_notes_per_iteration : List Nat
  phrase_iteration_count1 : Nat
  notes_in_iteration1 : List Nat
  phrase_iteration_count2 : Nat
  notes_in_iteration2 : List Nat

/-- Embeds `Arrangement::read_from` (src/models.rs). -/
def Arrangement.read_from : Reader Arrangement := fun s => do
  let (difficulty, s) ← read_i32_le s
  let (anchors, s) ← read_vec Anchor.read_from s
  let (anchor_extensions, s) ← read_vec AnchorExtension.read_from s
  let (fingerprints1, s) ← read_vec Fingerprint.read_from s
  let (fingerprints2, s) ← read_vec Fingerprint.read_from s
  let (notes, s) ← read_vec Note.read_from s
  let (phrase_count, s) ← read_i32_le s
  let (anpi, s) ← read_vec_of_f32 (i32_as_usize phrase_count) s
  let (pic1, s) ← read_i32_le s
  let (nii1, s) ← read_vec_of_i32 (i32_as_usize pic1) s
  let (pic2, s) ← read_i32_le s
  let (nii2, s) ← read_vec_of_i32 (i32_as_usize pic2) s
  return (⟨difficulty, anchors, anchor_extensions, fingerprints1, fingerprints2,
    notes, phrase_count, anpi, pic1, nii1, pic2, nii2⟩, s)

/-- The SNG asset: the full document read by `SngAsset::read_from`
(src/psarc.rs lines 242-297). -/
structure SngAsset where
  bpms : List Bpm
  phrases : List Phrase
  chords : List Chord
  chord_notes : List ChordNotes
  vocals : List Vocal
  symbol_headers : Option (List SymbolsHeader)
  symbol_textures : Option (List SymbolsTexture)
  symbol_definitions : Option (List SymbolDefinition)
  phrase_iterations : List PhraseIteration
  phrase_extra_info : List PhraseExtraInfoByLevel
  nld : List NLinkedDifficulty
  actions : List Action
  events : List Event
  tones : List Tone
  dnas : List Dna
  sections : List Section
  arrangements : List Arrangement
  metadata : Metadata

/-- The error-propagation of Rust's `?` operator on an `io::Result`:
an error short-circuits, a success feeds the continuation. -/
def bindE {α β : Type} (x : Except ErrKind α) (f : α → Except ErrKind β) :
    Except ErrKind β :=
  match x with
  | Except.error e => Except.error e
  | Except.ok a => f a

/-- The three optional symbol tables of an SNG document, in source order. -/
abbrev SymbolTables :=
  Option (List SymbolsHeader) × Option (List SymbolsTexture) × Option (List SymbolDefinition)

/-- Embeds the plaintext-body parse of `SngAsset::read_from`
(src/psarc.rs lines 267-296): the strictly ordered sequence of counted
arrays, with the three symbol arrays read (headers, textures,
definitions, in that order) exactly when `vocals` is non-empty, followed
by a single `Metadata` record. The preceding decrypt/decompress step
(`DecryptStream::new_sng`) is embedded separately; `SngAsset.read_from`
below composes the two. -/
def SngAsset.read_body : Reader SngAsset := fun s0 =>
  bindE (read_vec Bpm.read_from s0) fun r1 =>
  bindE (read_vec Phrase.read_from r1.2) fun r2 =>
  bindE (read_vec Chord.read_from r2.2) fun r3 =>
  bindE (read_vec ChordNotes.read_from r3.2) fun r4 =>
  bindE (read_vec Vocal.read_from r4.2) fun r5 =>
  bindE (α := SymbolTables × Bytes)
    (if r5.1.isEmpty then Except.ok ((none, none, none), r5.2)
     else
      bindE (read_vec SymbolsHeader.read_from r5.2) fun rh =>
      bindE (read_vec SymbolsTexture.read_from rh.2) fun rt =>
      bindE (read_vec SymbolDefinition.read_from rt.2) fun rd =>
      Except.ok ((some rh.1, some rt.1, some rd.1), rd.2)) fun r6 =>
  bindE (read_vec PhraseIteration.read_from r6.2) fun r7 =>
  bindE (read_vec PhraseExtraInfoByLevel.read_from r7.2) fun r8 =>
  bindE (read_vec NLinkedDifficulty.read_from r8.2) fun r9 =>
  bindE (read_vec Action.read_from r9.2) fun r10 =>
  bindE (read_vec Event.read_from r10.2) fun r11 =>
  bindE (read_vec Tone.read_from r11.2) fun r12 =>
  bindE (read_vec Dna.read_from r12.2) fun r13 =>
  bindE (read_vec Section.read_from r13.2) fun r14 =>
  bindE (read_vec Arrangement.read_from r14.2) fun r15 =>
  bindE (Metadata.read_from r15.2) fun r16 =>
  Except.ok (⟨r1.1, r2.1, r3.1, r4.1, r5.1, r6.1.1, r6.1.2.1, r6.1.2.2, r7.1,
    r8.1, r9.1, r10.1, r11.1, r12.1, r13.1, r14.1, r15.1, r16.1⟩, r16.2)

/-
  Decryptor (src/decryptor.rs). The AES-256 primitives live in external
  crates, so the two cipher applications are taken as parameters:
  `decrypt_psarc : Bytes → Bytes` stands for AES-256-CFB decryption with
  `PSARC_KEY` and zero IV applied to a whole buffer, and
  `ctr_decrypt : Bytes → Bytes → Bytes` for AES-256-CTR-BE keystream
  application given the 16-byte IV and the ciphertext. Likewise flate2's
  decompressors are parameters `zlib`, `deflate : Bytes → Option Bytes`
  (`none` models a backend error).
-/

/-- Embeds `DecryptStream::new_sng` (src/decryptor.rs lines 65-132):
24-byte header (u32 LE identifier `0x4A`, u32 LE asset flags, 16-byte IV),
`length - 24` ciphertext bytes decrypted with AES-256-CTR-BE, then Zlib
decompression of the plaintext after a 4-byte u32 LE size hint when bit 0
of the asset flags is set, or the plaintext verbatim otherwise.
`Res.panicked` models the usize underflow of `length - 24`. -/
def DecryptStream.new_sng (ctr_decrypt : Bytes → Bytes → Bytes)
    (zlib : Bytes → Option Bytes) (input : Bytes) (length : Nat) : Res Bytes :=
  match readExact input 24 with
  | Except.error e => Res.err e
  | Except.ok (header, rest) =>
    let identifier := leVal (header.take 4)
    if identifier ≠ 0x4A then Res.err ErrKind.notSng
    else
      let asset_flags := leVal ((header.drop 4).take 4)
      let decrypt_iv := header.drop 8
      if length < 24 then Res.panicked
      else
        let encrypted_length := length - 24
        match readExact rest encrypted_length with
        | Except.error e => Res.err e
        | Except.ok (ciphertext, _) =>
          let plain := ctr_decrypt decrypt_iv ciphertext
          if asset_flags &&& 1 ≠ 0 then
            if plain.length < 4 then Res.err ErrKind.truncated
            else
              match zlib (plain.drop 4) with
              | none => Res.err ErrKind.decompressFailure
              | some decompressed => Res.ok decompressed
          else Res.ok plain

/-- Embeds `SngAsset::read_from` (src/psarc.rs lines 267-296): the SNG
decrypt/decompress step followed by the sequential body parse. -/
def SngAsset.read_from (ctr_decrypt : Bytes → Bytes → Bytes)
    (zlib : Bytes → Option Bytes) (input : Bytes) (length : Nat) : Res SngAsset :=
  match DecryptStream.new_sng ctr_decrypt zlib input length with
  | Res.panicked => Res.panicked
  | Res.err e => Res.err e
  | Res.ok body =>
    match SngAsset.read_body body with
    | Except.error e => Res.err e
    | Except.ok (asset, _) => Res.ok asset

/-
  PSARC container (src/psarc.rs).
-/

/-- Embeds `PsarcFileHeader` (src/psarc.rs lines 33-44); `archive_flags`
is kept as the raw u32 (`from_bits_truncate` only clears bits ≥ 8 and the
code reads only bit 2, `TOC_ENCRYPTED = 4`). -/
structure PsarcFileHeader where
  identifier : Bytes
  version : Nat
  compression : Bytes
  toc_size : Nat
  toc_entry_size : Nat
  toc_offset : Nat
  entry_count : Nat
  block_size : Nat
  archive_flags : Nat

/-- Embeds `PsarcTOCEntry` (src/psarc.rs lines 100-108). The 16 hash
bytes are kept raw (the source formats them as uppercase hex for
display, which does not affect any claim). -/
structure PsarcTOCEntry where
  index : Nat
  hash : Bytes
  start_block : Nat
  length : Nat
  offset : Nat
  path : Option String

/-- Embeds `PsarcTOC` (src/psarc.rs lines 110-116). -/
structure PsarcTOC where
  entries : List PsarcTOCEntry
  encrypted : Bool
  zip_block_sizes : List Nat

/-- The entry-table loop of `PsarcTOC::read_from` (src/psarc.rs lines
162-179): each entry is 16 hash bytes, a u32 BE start block, and two
40-bit BE values (length, offset); `index` counts from `i`. -/
def parse_toc_entries : Nat → Nat → Reader (List PsarcTOCEntry)
  | 0, _ => fun s => Except.ok ([], s)
  | n + 1, i => fun s => do
      let (hash, s) ← readExact s 16
      let (start_block, s) ← read_u32_be s
      let (length, s) ← read_u40_be s
      let (offset, s) ← read_u40_be s
      let (entries, s) ← parse_toc_entries n (i + 1) s
      return (⟨i, hash, start_block, length, offset, none⟩ :: entries, s)

/-- The block-size loop of `PsarcTOC::read_from` (src/psarc.rs lines
193-202): `z_num` values of width `b_num` bytes big-endian; widths other
than 2, 3, 4 fail with `UnsupportedBlockWidth`. -/
def parse_zsizes (b_num : Nat) : Nat → Reader (List Nat)
  | 0 => fun s => Except.ok ([], s)
  | n + 1 => fun s => do
      let (size, s) ←
        match b_num with
        | 2 => read_u16_be s
        | 3 => read_u24_be s
        | 4 => read_u32_be s
        | _ => Except.error ErrKind.unsupportedBlockWidth
      let (sizes, s) ← parse_zsizes b_num n s
      return (size :: sizes, s)

/-- Models `(header.block_size as f64).log(256.0).round() as usize`
(src/psarc.rs line 189) on natural inputs: `round(log_256 b) = k` exactly
when `16·256^(k-1) ≤ b < 16·256^k`, i.e. `k = floor(log_256 (16·b))`.
Computed with an explicit fuel so the kernel can evaluate it. The two
agree for every block size except values within the f64 rounding error of
the half-power boundaries `16·256^k` (never produced by real headers);
in particular both yield 2 at the standard 65536 and 0 at 0 (Rust:
`round(-inf) as usize = 0`). -/
def floorLog256Aux : Nat → Nat → Nat
  | 0, _ => 0
  | fuel + 1, n => if n < 256 then 0 else floorLog256Aux fuel (n / 256) + 1

/-- Rounded base-256 logarithm of the block size; see `floorLog256Aux`. -/
def log256_round (block_size : Nat) : Nat :=
  floorLog256Aux (16 * block_size) (16 * block_size)

/-- The part of `PsarcTOC::read_from` (src/psarc.rs lines 159-209) that
runs on the chosen reader (plaintext buffer when encrypted, the raw
stream otherwise): parse `entry_count` entries, check
`remaining = toc_size - 32 - entry_count·toc_entry_size ≥ 0` (isize
arithmetic), derive `b_num` and `z_num = min(remaining / b_num, 500)`,
and parse the block-size array. `Res.panicked` models the usize division
by zero when `b_num = 0`. -/
def toc_parse_body (header : PsarcFileHeader) (plain : Bytes) : Res PsarcTOC :=
  match parse_toc_entries header.entry_count 0 plain with
  | Except.error e => Res.err e
  | Except.ok (entries, s1) =>
    let toc_entries_bytes := header.entry_count * header.toc_entry_size
    if (header.toc_size : Int) - 32 - (toc_entries_bytes : Int) < 0 then
      Res.err ErrKind.malformed
    else
      let remaining := header.toc_size - 32 - toc_entries_bytes
      let b_num := log256_round header.block_size
      if b_num = 0 then Res.panicked
      else
        let z_num := min (remaining / b_num) 500
        match parse_zsizes b_num z_num s1 with
        | Except.error e => Res.err e
        | Except.ok (zip_block_sizes, _) =>
          Res.ok ⟨entries, header.archive_flags.testBit 2, zip_block_sizes⟩

/-- Embeds `PsarcTOC::read_from` (src/psarc.rs lines 147-209). `stream`
is the byte stream positioned immediately after the 32-byte header. When
bit 2 of the archive flags (`TOC_ENCRYPTED`) is set, the source calls
`DecryptStream::new_psarc(&mut reader, header.toc_size as usize)`, which
`read_exact`s exactly `header.toc_size` bytes and decrypts them
(src/decryptor.rs lines 43-55); parsing then proceeds from the plaintext
buffer. Otherwise parsing proceeds directly from the stream. -/
def PsarcTOC.read_from (decrypt_psarc : Bytes → Bytes) (stream : Bytes)
    (header : PsarcFileHeader) : Res PsarcTOC :=
  if header.archive_flags.testBit 2 then
    match readExact stream header.toc_size with
    | Except.error e => Res.err e
    | Except.ok (encrypted_data, _) => toc_parse_body header (decrypt_psarc encrypted_data)
  else toc_parse_body header stream

/-- Modelled from the spec: this second definition follows the spec's
words for claim C1 — "decrypt the next `toc_size - 32` bytes (i.e. up to
`toc_size` from file start)" — instead of the source's `toc_size`-byte
read, and is used only to exhibit the divergence between the two. -/
def PsarcTOC.read_from_spec (decrypt_psarc : Bytes → Bytes) (stream : Bytes)
    (header : PsarcFileHeader) : Res PsarcTOC :=
  if header.archive_flags.testBit 2 then
    match readExact stream (header.toc_size - 32) with
    | Except.error e => Res.err e
    | Except.ok (encrypted_data, _) => toc_parse_body header (decrypt_psarc encrypted_data)
  else toc_parse_body header stream

/-- Embeds `PsarcFile` (src/psarc.rs lines 363-368): header, TOC and the
whole file slurped into one byte buffer. -/
structure PsarcFile where
  header : PsarcFileHeader
  toc : PsarcTOC
  data : Bytes

/-- Models `((entry.length as f64) / (block_size as f64)).ceil() as u32`
(src/psarc.rs line 416) as the exact ceiling division. The f64 quotient
of a 40-bit length by a 32-bit block size carries an absolute error below
`length·2^-52 < 2^-12 · ulp⁻¹`, too small to cross an integer, so the f64
ceiling equals the exact one on every representable header; both yield 0
when `length = 0` (for `block_size = 0` the f64 path is NaN/∞-driven and
also yields 0 only at `length = 0`, the one case any claim touches). -/
def num_blocks_of (block_size length : Nat) : Nat :=
  (length + block_size - 1) / block_size

/-- Models `entry.start_block + num_blocks - 1` (src/psarc.rs line 417)
as the u32 arithmetic of a release build: the addition and the
subtraction of 1 both wrap modulo `2^32` (subtracting 1 is adding
`2^32 - 1`). A debug build instead panics at this very computation
whenever `start_block + num_blocks` exceeds `u32::MAX` (add overflow) or
equals 0 (sub underflow); in those cases the release build's wrapped
value makes the inclusive block range empty or shifted, so the walk
misbehaves in both builds. When `1 ≤ start_block + num_blocks ≤ 2^32`
the wrapped value is the exact `start_block + num_blocks - 1`. -/
def last_block_u32 (start_block num_blocks : Nat) : Nat :=
  (start_block + num_blocks + (2 ^ 32 - 1)) % 2 ^ 32

/-- The block-index range `entry.start_block..=last_block` walked by
`inflate_entry_data` (src/psarc.rs line 427), with `last_block` the u32
computation `start_block + num_blocks - 1` (see `last_block_u32`); an
inclusive Rust range with `last_block < start_block` iterates zero
times. -/
def entry_blocks (file : PsarcFile) (entry : PsarcTOCEntry) : List Nat :=
  List.range' entry.start_block
    (last_block_u32 entry.start_block (num_blocks_of file.header.block_size entry.length) +
      1 - entry.start_block)

/-- One iteration of the block loop of `inflate_entry_data`
(src/psarc.rs lines 427-454) at cursor position `pos` within
`file.data`: look up `zip_block_sizes.get(block).unwrap_or(0)`; a zero
size reads up to `block_size` raw bytes (`Read::read`); a non-zero size
peeks two bytes as u16 BE, and either calls `unzip_block` (skip the
2-byte Zlib header, `read_exact` `size - 2` bytes, Deflate-decompress —
src/psarc.rs lines 532-545) when they equal `0x78DA`, or `read_exact`s
exactly `size` raw bytes otherwise. Returns the bytes appended to the
output and the new cursor position. -/
def block_step (deflate : Bytes → Option Bytes) (file : PsarcFile)
    (block : Nat) (pos : Nat) : Except ErrKind (Bytes × Nat) :=
  let block_size := file.header.block_size
  let zipblock_size := file.toc.zip_block_sizes.getD block 0
  if zipblock_size = 0 then
    let buf := (file.data.drop pos).take block_size
    Except.ok (buf, pos + buf.length)
  else
    match read_u16_be (file.data.drop pos) with
    | Except.error e => Except.error e
    | Except.ok (header_val, _) =>
      if header_val = 0x78DA then
        if zipblock_size < 2 then Except.error ErrKind.invalidInput
        else
          match readExact (file.data.drop (pos + 2)) (zipblock_size - 2) with
          | Except.error e => Except.error e
          | Except.ok (comp_data, _) =>
            match deflate comp_data with
            | none => Except.error ErrKind.decompressFailure
            | some decompressed => Except.ok (decompressed, pos + zipblock_size)
      else
        match readExact (file.data.drop pos) zipblock_size with
        | Except.error e => Except.error e
        | Except.ok (raw, _) => Except.ok (raw, pos + zipblock_size)

/-- The block loop of `inflate_entry_data`: walk the listed block
indices, threading the cursor and concatenating the appended bytes. -/
def walk_blocks (deflate : Bytes → Option Bytes) (file : PsarcFile) :
    List Nat → Nat → Except ErrKind (Bytes × Nat)
  | [], pos => Except.ok ([], pos)
  | b :: bs, pos =>
    match block_step deflate file b pos with
    | Except.error e => Except.error e
    | Except.ok (chunk, pos1) =>
      match walk_blocks deflate file bs pos1 with
      | Except.error e => Except.error e
      | Except.ok (out, pos2) => Except.ok (chunk ++ out, pos2)

/-- Embeds `PsarcFile::inflate_entry_data` (src/psarc.rs lines 413-459):
compute the block count and last block (u32 arithmetic, wrapping as in a
release build — see `last_block_u32`; a debug build panics at the
over/underflowing computation itself), walk the blocks from
`entry.offset`, and truncate the accumulated output to `entry.length`. -/
def inflate_entry_data (deflate : Bytes → Option Bytes) (file : PsarcFile)
    (entry : PsarcTOCEntry) : Res Bytes :=
  match walk_blocks deflate file (entry_blocks file entry) entry.offset with
  | Except.error e => Res.err e
  | Except.ok (out, _) => Res.ok (out.take entry.length)

/-- One assignment `self.toc.entries[i].path = Some(p)` of the manifest
loop; `none` models the Rust index-out-of-bounds panic when `i` is not a
valid index. -/
def set_path (es : List PsarcTOCEntry) (i : Nat) (p : String) :
    Option (List PsarcTOCEntry) :=
  if h : i < es.length then
    some (es.set i { es.get ⟨i, h⟩ with path := some p })
  else none

/-- The manifest loop of `PsarcFile::read_manifest` (src/psarc.rs lines
472-474): `for (i, line) in lines { entries[i + 1].path = Some(line) }`,
started at index `i`. -/
def assign_lines : List PsarcTOCEntry → Nat → List String → Option (List PsarcTOCEntry)
  | es, _, [] => some es
  | es, i, line :: rest =>
    match set_path es i line with
    | none => none
    | some es2 => assign_lines es2 (i + 1) rest

/-- Embeds the binding logic of `PsarcFile::read_manifest` (src/psarc.rs
lines 464-476) as a function of the entry list and the decoded manifest
lines of entry 0 (the inflation and UTF-8 decoding that produce the
lines are quantified over, as in claim C2): with no entries it returns
immediately; otherwise entry 0's path becomes `"NamesBlock.bin"` and
each line is assigned to `entries[i + 1]` in order. -/
def read_manifest_bind (es : List PsarcTOCEntry) (lines : List String) :
    Option (List PsarcTOCEntry) :=
  match es with
  | [] => some []
  | e0 :: rest => assign_lines ({ e0 with path := some "NamesBlock.bin" } :: rest) 1 lines

/-
  Statement predicates and concrete inputs used by the claim theorems,
  their witnesses and counterexamples.
-/

/-- The property claim C9 asserts of a parsed SNG document: the three
symbol tables are present exactly when `vocals` is non-empty; when
`vocals` is empty all three are absent and the parse continues (with
`phrase_iterations`) at the stream position reached right after
`vocals`, consuming no counted arrays for the symbol tables; when
`vocals` is non-empty the three tables are read immediately after
`vocals`, in the order headers, textures, definitions. -/
def SngSymbolsSpec (s : Bytes) (a : SngAsset) : Prop :=
  ((a.symbol_headers.isSome ∧ a.symbol_textures.isSome ∧ a.symbol_definitions.isSome) ↔
      a.vocals ≠ [])
  ∧ ∃ s5,
      (∃ x1 s1 x2 s2 x3 s3 x4 s4,
        read_vec Bpm.read_from s = Except.ok (x1, s1) ∧
        read_vec Phrase.read_from s1 = Except.ok (x2, s2) ∧
        read_vec Chord.read_from s2 = Except.ok (x3, s3) ∧
        read_vec ChordNotes.read_from s3 = Except.ok (x4, s4) ∧
        read_vec Vocal.read_from s4 = Except.ok (a.vocals, s5))
      ∧ (a.vocals = [] →
          a.symbol_headers = none ∧ a.symbol_textures = none ∧
          a.symbol_definitions = none ∧
          ∃ pi s6, read_vec PhraseIteration.read_from s5 = Except.ok (pi, s6) ∧
            a.phrase_iterations = pi)
      ∧ (a.vocals ≠ [] →
          ∃ hs s6 ts s7 ds s8,
            read_vec SymbolsHeader.read_from s5 = Except.ok (hs, s6) ∧
            read_vec SymbolsTexture.read_from s6 = Except.ok (ts, s7) ∧
            read_vec SymbolDefinition.read_from s7 = Except.ok (ds, s8) ∧
            a.symbol_headers = some hs ∧ a.symbol_textures = some ts ∧
            a.symbol_definitions = some ds ∧
            ∃ pi s9, read_vec PhraseIteration.read_from s8 = Except.ok (pi, s9) ∧
              a.phrase_iterations = pi)

/-- An all-zero SNG plaintext body: 14 zero counts (the five leading
arrays, then — `vocals` being empty — the nine trailing arrays) followed
by a 95-byte all-zero `Metadata` record (its `string_count` is 0). -/
def zeroSngBody : Bytes := List.replicate 151 0

/-- The `Metadata` record parsed from all-zero bytes. -/
def zeroMetadata : Metadata := ⟨0, 0, 0, 0, 0, 0, 0, [], 0, 0, 0, [], 0, 0, 0⟩

/-- The SNG document parsed from `zeroSngBody`. -/
def zeroSngAsset : SngAsset :=
  ⟨[], [], [], [], [], none, none, none, [], [], [], [], [], [], [], [], [], zeroMetadata⟩

/-- Encrypted-TOC header with `toc_size = 62`, no entries, standard
65536-byte blocks: the TOC region proper (after the 32-byte header) is
`62 - 32 = 30` bytes. -/
def hdr_c1x : PsarcFileHeader :=
  ⟨[0x50, 0x53, 0x41, 0x52], 4, [0x7A, 0x6C, 0x69, 0x62], 62, 30, 32, 0, 65536, 4⟩

/-- Encrypted-TOC header with `toc_size = 32` (an empty TOC region). -/
def hdr_c1w : PsarcFileHeader :=
  ⟨[0x50, 0x53, 0x41, 0x52], 4, [0x7A, 0x6C, 0x69, 0x62], 32, 30, 32, 0, 65536, 4⟩

/-- First entry of the two-entry archive used for claim C2. -/
def entry_c2a : PsarcTOCEntry := ⟨0, [], 0, 0, 32, none⟩

/-- Second entry of the two-entry archive used for claim C2. -/
def entry_c2b : PsarcTOCEntry := ⟨1, [], 0, 0, 62, none⟩

/-- Archive whose only entry spans one block that lies beyond the end of
the (empty) block-size array. -/
def file_c6w : PsarcFile :=
  ⟨⟨[0x50, 0x53, 0x41, 0x52], 4, [0x7A, 0x6C, 0x69, 0x62], 32, 30, 32, 1, 16, 0⟩,
    ⟨[⟨0, [], 0, 5, 0, none⟩], false, []⟩, List.range 16⟩

/-- The single entry of `file_c6w`. -/
def entry_c6w : PsarcTOCEntry := ⟨0, [], 0, 5, 0, none⟩

/-- Archive whose block 0 has recorded size 4 and starts with the Zlib
magic `78 DA`. -/
def file_c7w : PsarcFile :=
  ⟨⟨[0x50, 0x53, 0x41, 0x52], 4, [0x7A, 0x6C, 0x69, 0x62], 32, 30, 32, 1, 16, 0⟩,
    ⟨[⟨0, [], 0, 2, 0, none⟩], false, [4]⟩, [0x78, 0xDA, 7, 8]⟩

/-- Archive for the C10 counterexample: one zero-length entry at
`start_block = 0` and a non-empty recorded block size, so a wrapping
release build fails as well. -/
def file_c10x : PsarcFile :=
  ⟨⟨[0x50, 0x53, 0x41, 0x52], 4, [0x7A, 0x6C, 0x69, 0x62], 62, 30, 32, 1, 16, 0⟩,
    ⟨[⟨0, [], 0, 0, 0, none⟩], false, [1]⟩, []⟩

/-- The zero-length, zero-start-block entry of `file_c10x`. -/
def entry_c10x : PsarcTOCEntry := ⟨0, [], 0, 0, 0, none⟩

/-- Archive for the C10 witness. -/
def file_c10w : PsarcFile :=
  ⟨⟨[0x50, 0x53, 0x41, 0x52], 4, [0x7A, 0x6C, 0x69, 0x62], 62, 30, 32, 1, 16, 0⟩,
    ⟨[⟨0, [], 1, 0, 0, none⟩], false, [1]⟩, []⟩

/-- A zero-length entry with `start_block = 1`. -/
def entry_c10w : PsarcTOCEntry := ⟨0, [], 1, 0, 0, none⟩

/-
  Helper lemmas.
-/

/-- Inversion for `bindE`: a successful chain has a successful head. -/
theorem bindE_ok_inv {α β : Type} {x : Except ErrKind α} {f : α → Except ErrKind β}
    {v : β} (h : bindE x f = Except.ok v) : ∃ a, x = Except.ok a ∧ f a = Except.ok v := by
  cases x with
  | error e => simp [bindE] at h
  | ok a => exact ⟨a, rfl, h⟩

/-- A reader that consumes exactly `k` bytes on success and fails with
`truncated` on short input makes `read_count` fail with `truncated`
whenever fewer than `n * k` bytes remain. -/
theorem read_count_short {α : Type} (k : Nat) (f : Reader α)
    (hf : ∀ s : Bytes, (k ≤ s.length → ∃ a, f s = Except.ok (a, s.drop k)) ∧
      (s.length < k → f s = Except.error ErrKind.truncated)) :
    ∀ (n : Nat) (s : Bytes), s.length < n * k →
      read_count n f s = Except.error ErrKind.truncated := by
  intro n
  induction n with
  | zero => intro s h; simp at h
  | succ n ih =>
    intro s h
    rcases Nat.lt_or_ge s.length k with hlt | hge
    · have hfe := (hf s).2 hlt
      simp [read_count, hfe]
    · obtain ⟨a, ha⟩ := (hf s).1 hge
      have hrec : (s.drop k).length < n * k := by
        rw [List.length_drop]
        rw [Nat.succ_mul] at h
        omega
      have := ih (s.drop k) hrec
      simp [read_count, ha, this]

/-- Under the same element-reader discipline, `read_count` never reports
`malformed`. -/
theorem read_count_not_malformed {α : Type} (k : Nat) (f : Reader α)
    (hf : ∀ s : Bytes, (k ≤ s.length → ∃ a, f s = Except.ok (a, s.drop k)) ∧
      (s.length < k → f s = Except.error ErrKind.truncated)) :
    ∀ (n : Nat) (s : Bytes), read_count n f s ≠ Except.error ErrKind.malformed := by
  intro n
  induction n with
  | zero => intro s h; simp [read_count] at h
  | succ n ih =>
    intro s h
    rcases Nat.lt_or_ge s.length k with hlt | hge
    · simp only [read_count] at h
      rw [(hf s).2 hlt] at h
      simp at h
    · obtain ⟨a, ha⟩ := (hf s).1 hge
      simp only [read_count, ha] at h
      cases hr : read_count n f (s.drop k) with
      | error e =>
        rw [hr] at h
        simp only [Except.error.injEq] at h
        exact ih (s.drop k) (h ▸ hr)
      | ok p => rw [hr] at h; simp at h

/-- A zero-length entry spans no blocks. -/
theorem num_blocks_len_zero (bs : Nat) : num_blocks_of bs 0 = 0 := by
  unfold num_blocks_of
  cases bs with
  | zero => rfl
  | succ m =>
    apply Nat.div_eq_of_lt
    omega

/-- A block index past the end of the block-size array takes the
`zsize == 0` branch: up to `block_size` raw bytes are read and the step
never fails. -/
theorem block_step_oob (deflate : Bytes → Option Bytes) (file : PsarcFile)
    (b pos : Nat) (hb : file.toc.zip_block_sizes.length ≤ b) :
    block_step deflate file b pos =
      Except.ok ((file.data.drop pos).take file.header.block_size,
        pos + ((file.data.drop pos).take file.header.block_size).length) := by
  have hz : file.toc.zip_block_sizes.getD b 0 = 0 :=
    List.getD_eq_default _ _ hb
  simp only [block_step]
  rw [hz]
  simp

/-- Unfolds one successful step of `walk_blocks`. -/
theorem walk_blocks_cons_ok (deflate : Bytes → Option Bytes) (file : PsarcFile)
    (b : Nat) (bs : List Nat) (pos : Nat) (chunk : Bytes) (pos1 : Nat)
    (hs : block_step deflate file b pos = Except.ok (chunk, pos1)) :
    walk_blocks deflate file (b :: bs) pos =
      match walk_blocks deflate file bs pos1 with
      | Except.error e => Except.error e
      | Except.ok (out, pos2) => Except.ok (chunk ++ out, pos2) := by
  rw [walk_blocks, hs]

/-- A walk over blocks that all lie past the end of the block-size array
always succeeds. -/
theorem walk_oob_ok (deflate : Bytes → Option Bytes) (file : PsarcFile) :
    ∀ l : List Nat, (∀ b ∈ l, file.toc.zip_block_sizes.length ≤ b) →
      ∀ pos, ∃ out p, walk_blocks deflate file l pos = Except.ok (out, p) := by
  intro l
  induction l with
  | nil => intro _ pos; exact ⟨[], pos, rfl⟩
  | cons b bs ih =>
    intro hall pos
    have hstep := block_step_oob deflate file b pos (hall b (by simp))
    obtain ⟨out, p, hw⟩ := ih (fun x hx => hall x (by simp [hx]))
      (pos + ((file.data.drop pos).take file.header.block_size).length)
    refine ⟨(file.data.drop pos).take file.header.block_size ++ out, p, ?_⟩
    rw [walk_blocks_cons_ok deflate file b bs pos _ _ hstep, hw]

/-- Appending block lists composes the walks. -/
theorem walk_blocks_append_ok (deflate : Bytes → Option Bytes) (file : PsarcFile) :
    ∀ (l1 l2 : List Nat) (pos : Nat) (out1 : Bytes) (pos1 : Nat) (out2 : Bytes) (pos2 : Nat),
      walk_blocks deflate file l1 pos = Except.ok (out1, pos1) →
      walk_blocks deflate file l2 pos1 = Except.ok (out2, pos2) →
      walk_blocks deflate file (l1 ++ l2) pos = Except.ok (out1 ++ out2, pos2) := by
  intro l1
  induction l1 with
  | nil =>
    intro l2 pos out1 pos1 out2 pos2 h1 h2
    rw [walk_blocks] at h1
    simp only [Except.ok.injEq, Prod.mk.injEq] at h1
    obtain ⟨h1a, h1b⟩ := h1
    subst h1a; subst h1b
    simpa using h2
  | cons b bs ih =>
    intro l2 pos out1 pos1 out2 pos2 h1 h2
    cases hs : block_step deflate file b pos with
    | error e => rw [walk_blocks, hs] at h1; simp at h1
    | ok q =>
      obtain ⟨chunk, posq⟩ := q
      rw [walk_blocks_cons_ok deflate file b bs pos chunk posq hs] at h1
      cases hw : walk_blocks deflate file bs posq with
      | error e => rw [hw] at h1; simp at h1
      | ok r =>
        obtain ⟨o, p⟩ := r
        rw [hw] at h1
        simp only [Except.ok.injEq, Prod.mk.injEq] at h1
        obtain ⟨h1a, h1b⟩ := h1
        subst h1a; subst h1b
        rw [List.cons_append,
          walk_blocks_cons_ok deflate file b (bs ++ l2) pos chunk posq hs,
          ih l2 posq o p out2 pos2 hw h2]
        simp [List.append_assoc]

/-- Claim C4 counterexample: on the six-byte input `00 00 00 12 34 56`,
`read_u40_be` consumes only the first five bytes `00 00 00 12 34` and
yields `0x1234`, not the claimed `0x0000123456`. -/
theorem read_u40_be_on_claimed_input_ne :
    read_u40_be [0x00, 0x00, 0x00, 0x12, 0x34, 0x56] =
      Except.ok (0x1234, [0x56]) ∧ (0x1234 : Nat) ≠ 0x0000123456 := by
  constructor
  · rfl
  · decide

/-- Claim C4 (amended): applying `read_u40_be` to the input bytes
`00 00 00 12 34 56` consumes the first five bytes, most significant
first, into a u64, yielding `0x0000001234` and leaving the byte `56`
unread. -/
theorem read_u40_be_claimed_input (rest : Bytes) :
    read_u40_be (0x00 :: 0x00 :: 0x00 :: 0x12 :: 0x34 :: rest) =
      Except.ok (0x0000001234, rest) := by
  simp [read_u40_be, readExact]

/-- Claim C5 counterexample: a counted-array read whose u32 LE count (1)
requires more element bytes than remain (none remain for the 8-byte
`Tone` record) fails with the `truncated` (`UnexpectedEof`) kind, not
the claimed `malformed` kind. -/
theorem read_vec_overlong_count_truncated :
    read_vec Tone.read_from [1, 0, 0, 0] = Except.error ErrKind.truncated
    ∧ ErrKind.truncated ≠ ErrKind.malformed := by
  constructor
  · rfl
  · decide

/-- Claim C5 (amended): for every counted-array read whose element
reader consumes exactly `k ≥ 1` bytes on success and fails with
`truncated` on short input, a u32 LE count requiring more element bytes
than remain makes `read_vec` fail with the `truncated` error kind (the
element read that hits the end of the stream), and `read_vec` can never
fail with `malformed` — the source's "negative count" guard is
unreachable because the count is unsigned, and no sanity ceiling
exists. -/
theorem read_vec_overlong_count (k : Nat) {α : Type} (f : Reader α)
    (hf : ∀ s : Bytes, (k ≤ s.length → ∃ a, f s = Except.ok (a, s.drop k)) ∧
      (s.length < k → f s = Except.error ErrKind.truncated)) :
    (∀ s : Bytes, 4 ≤ s.length → s.length - 4 < leVal (s.take 4) * k →
      read_vec f s = Except.error ErrKind.truncated)
    ∧ (∀ s : Bytes, read_vec f s ≠ Except.error ErrKind.malformed) := by
  constructor
  · intro s h4 hover
    have h32 : read_u32_le s = Except.ok (leVal (s.take 4), s.drop 4) := by
      simp [read_u32_le, read_le, readExact, h4]
    simp only [read_vec, h32]
    rw [if_neg (by omega)]
    apply read_count_short k f hf
    rw [List.length_drop]
    omega
  · intro s h
    by_cases h4 : 4 ≤ s.length
    · have h32 : read_u32_le s = Except.ok (leVal (s.take 4), s.drop 4) := by
        simp [read_u32_le, read_le, readExact, h4]
      simp only [read_vec, h32] at h
      rw [if_neg (by omega)] at h
      exact read_count_not_malformed k f hf _ _ h
    · have h32 : read_u32_le s = Except.error ErrKind.truncated := by
        simp [read_u32_le, read_le, readExact, h4]
      simp only [read_vec, h32] at h
      simp at h

/-- Claim C5 witness: the amended statement applied to a concrete
1-byte element reader (`read_u8`) and the stream `[5, 0, 0, 0]`, whose
count 5 exceeds the zero remaining bytes. -/
theorem read_vec_overlong_count_witness :
    read_vec read_u8 [5, 0, 0, 0] = Except.error ErrKind.truncated := by
  have hf : ∀ s : Bytes, (1 ≤ s.length → ∃ a, read_u8 s = Except.ok (a, s.drop 1)) ∧
      (s.length < 1 → read_u8 s = Except.error ErrKind.truncated) := by
    intro s
    cases s with
    | nil => exact ⟨fun h1 => by simp at h1, fun _ => rfl⟩
    | cons b r =>
      refine ⟨fun _ => ⟨b, ?_⟩, fun h1 => by simp at h1⟩
      simp [read_u8, read_le, readExact, leVal]
  exact (read_vec_overlong_count 1 read_u8 hf).1 [5, 0, 0, 0] (by decide) (by decide)

/-- Claim C2 (code bug): binding a two-line manifest over a two-entry
archive indexes `entries[2]` out of bounds — the manifest loop has no
`min(entry_count - 1, line_count)` clamp — so the binding panics
(modelled as `none`) instead of ignoring the extra line; with one line
the same archive binds normally. -/
theorem read_manifest_bind_overlong_panics :
    read_manifest_bind [entry_c2a, entry_c2b] ["a.sng", "b.sng"] = none
    ∧ read_manifest_bind [entry_c2a, entry_c2b] ["a.sng"] =
        some [{ entry_c2a with path := some "NamesBlock.bin" },
              { entry_c2b with path := some "a.sng" }] := by
  constructor
  · rfl
  · rfl

/-- Claim C1 counterexample: with the encrypted flag set and
`toc_size = 62`, the source decrypts `toc_size` bytes, not
`toc_size - 32`: on a stream holding exactly the 30 TOC-region bytes
(which end at byte offset `toc_size` from the start of the file) the
source fails with `truncated`, while the spec-modelled reader that
decrypts `toc_size - 32` bytes succeeds. -/
theorem toc_read_from_decrypts_toc_size_bytes :
    PsarcTOC.read_from id (List.replicate 30 0) hdr_c1x = Res.err ErrKind.truncated
    ∧ PsarcTOC.read_from_spec id (List.replicate 30 0) hdr_c1x =
        Res.ok ⟨[], true, List.replicate 15 0⟩ := by
  constructor
  · rfl
  · rfl

/-- Claim C1 (amended): when the header's TOC_ENCRYPTED flag is set,
reading the TOC consumes and decrypts exactly `toc_size` bytes taken
from the stream position immediately after the 32-byte header (so the
decrypted region ends at byte offset `toc_size + 32` from the start of
the file, 32 bytes past the TOC region), the entry table and block-size
array are parsed from that plaintext, and bytes beyond the first
`toc_size` never influence the result; a stream shorter than `toc_size`
fails with `truncated`. -/
theorem toc_read_from_encrypted (decrypt_psarc : Bytes → Bytes) (stream : Bytes)
    (header : PsarcFileHeader) (henc : header.archive_flags.testBit 2 = true) :
    (header.toc_size ≤ stream.length →
      PsarcTOC.read_from decrypt_psarc stream header =
        toc_parse_body header (decrypt_psarc (stream.take header.toc_size))
      ∧ PsarcTOC.read_from decrypt_psarc stream header =
        PsarcTOC.read_from decrypt_psarc (stream.take header.toc_size) header)
    ∧ (stream.length < header.toc_size →
      PsarcTOC.read_from decrypt_psarc stream header = Res.err ErrKind.truncated) := by
  constructor
  · intro hle
    have htk : (stream.take header.toc_size).length = header.toc_size := by
      rw [List.length_take]
      omega
    constructor
    · rw [PsarcTOC.read_from, if_pos henc, readExact, if_pos hle]
    · rw [PsarcTOC.read_from, if_pos henc, readExact, if_pos hle,
        PsarcTOC.read_from, if_pos henc, readExact, if_pos (le_of_eq htk.symm),
        List.take_take]
      simp
  · intro hlt
    rw [PsarcTOC.read_from, if_pos henc, readExact, if_neg (by omega)]

/-- Claim C1 witness: the amended theorem applied to the concrete
encrypted header `hdr_c1w` (`toc_size = 32`) over a 32-byte stream. -/
theorem toc_read_from_encrypted_witness :
    PsarcTOC.read_from id (List.replicate 32 0) hdr_c1w =
      toc_parse_body hdr_c1w (id ((List.replicate 32 0 : Bytes).take 32)) :=
  ((toc_read_from_encrypted id (List.replicate 32 0) hdr_c1w (by decide)).1
    (by decide)).1

/-- Claim C10 counterexample: inflating the zero-length entry with
`start_block = 0` of `file_c10x` does not return `Ok` with an empty
vector without reading any block — the u32 computation
`start_block + num_blocks - 1` underflows: a debug build panics at the
subtraction, and the modelled release build wraps `last_block` to
`u32::MAX`, reads block 0 (whose recorded size is 1) and fails with
`truncated`. -/
theorem inflate_zero_length_entry_fails :
    inflate_entry_data (fun _ => none) file_c10x entry_c10x =
      Res.err ErrKind.truncated := rfl

/-- Claim C10 (amended): `inflate_entry_data` is total on zero-length
entries with `start_block ≥ 1`: for every archive and Deflate backend it
returns `Ok` with an empty byte vector and walks no block (the block
range is empty); only the combination `length = 0` and
`start_block = 0` underflows. -/
theorem inflate_zero_length_entry (deflate : Bytes → Option Bytes) (file : PsarcFile)
    (entry : PsarcTOCEntry) (h0 : entry.length = 0) (h1 : 1 ≤ entry.start_block) :
    inflate_entry_data deflate file entry = Res.ok [] ∧ entry_blocks file entry = [] := by
  have hnil : entry_blocks file entry = [] := by
    rw [entry_blocks, h0, num_blocks_len_zero]
    have h2 : last_block_u32 entry.start_block 0 + 1 - entry.start_block = 0 := by
      rw [last_block_u32]
      have he : entry.start_block + 0 + (2 ^ 32 - 1) =
          (entry.start_block - 1) + 2 ^ 32 := by omega
      rw [he, Nat.add_mod_right]
      have hm := Nat.mod_le (entry.start_block - 1) (2 ^ 32)
      omega
    rw [h2, List.range'_zero]
  constructor
  · rw [inflate_entry_data, hnil, walk_blocks, h0]
    rfl
  · exact hnil

/-- Claim C10 witness: the amended theorem applied to the zero-length
entry with `start_block = 1` of `file_c10w`. -/
theorem inflate_zero_length_entry_witness :
    inflate_entry_data (fun _ => none) file_c10w entry_c10w = Res.ok []
    ∧ entry_blocks file_c10w entry_c10w = [] :=
  inflate_zero_length_entry (fun _ => none) file_c10w entry_c10w (by rfl) (by decide)

/-- Claim C6: a block index at or past the end of `zip_block_sizes` is
handled exactly like a recorded size of 0 — up to `block_size` raw bytes
are read from the cursor and appended, and the step never fails — and
consequently, for an entry whose block range splits into a prefix the
walk completes and a suffix lying entirely past the array, inflation
still succeeds. -/
theorem inflate_blocks_past_zip_sizes (deflate : Bytes → Option Bytes)
    (file : PsarcFile) :
    (∀ b pos, file.toc.zip_block_sizes.length ≤ b →
      block_step deflate file b pos =
        Except.ok ((file.data.drop pos).take file.header.block_size,
          pos + ((file.data.drop pos).take file.header.block_size).length))
    ∧ (∀ (entry : PsarcTOCEntry) (l1 l2 : List Nat) (out0 : Bytes) (pos0 : Nat),
        1 ≤ entry.start_block + num_blocks_of file.header.block_size entry.length →
        entry_blocks file entry = l1 ++ l2 →
        (∀ b ∈ l2, file.toc.zip_block_sizes.length ≤ b) →
        walk_blocks deflate file l1 entry.offset = Except.ok (out0, pos0) →
        ∃ v, inflate_entry_data deflate file entry = Res.ok v) := by
  constructor
  · intro b pos hb
    exact block_step_oob deflate file b pos hb
  · intro entry l1 l2 out0 pos0 _hnz hsplit hall hwalk
    obtain ⟨out2, p2, hw2⟩ := walk_oob_ok deflate file l2 hall pos0
    have hfull := walk_blocks_append_ok deflate file l1 l2 entry.offset out0 pos0
      out2 p2 hwalk hw2
    rw [inflate_entry_data, hsplit, hfull]
    exact ⟨_, rfl⟩

/-- Claim C6 witness: the single block of `entry_c6w` lies past the end
of the empty block-size array of `file_c6w`, and inflation succeeds. -/
theorem inflate_blocks_past_zip_sizes_witness :
    ∃ v, inflate_entry_data (fun _ => none) file_c6w entry_c6w = Res.ok v :=
  (inflate_blocks_past_zip_sizes (fun _ => none) file_c6w).2 entry_c6w [] [0] [] 0
    (by decide) (by rfl) (by decide) (by rfl)

/-- Claim C7: during inflation, a block with non-zero recorded size
`zsize` (at least 2, as required by the 2-byte Zlib header skip) that
lies within the archive is Deflate-decompressed — skipping 2 bytes and
inflating the following `zsize - 2` bytes — exactly when its first two
bytes read as u16 BE equal `0x78DA`; any other leading bytes make it be
appended as exactly `zsize` raw bytes unchanged; in either successful
case the cursor advances by exactly `zsize` bytes. -/
theorem block_step_zlib_magic (deflate : Bytes → Option Bytes) (file : PsarcFile)
    (b pos : Nat) (h2 : 2 ≤ file.toc.zip_block_sizes.getD b 0)
    (hin : pos + file.toc.zip_block_sizes.getD b 0 ≤ file.data.length) :
    (beVal ((file.data.drop pos).take 2) = 0x78DA →
      ∀ d, deflate ((file.data.drop (pos + 2)).take
          (file.toc.zip_block_sizes.getD b 0 - 2)) = some d →
        block_step deflate file b pos =
          Except.ok (d, pos + file.toc.zip_block_sizes.getD b 0))
    ∧ (beVal ((file.data.drop pos).take 2) ≠ 0x78DA →
        block_step deflate file b pos =
          Except.ok ((file.data.drop pos).take (file.toc.zip_block_sizes.getD b 0),
            pos + file.toc.zip_block_sizes.getD b 0)) := by
  have hdl : (file.data.drop pos).length = file.data.length - pos := List.length_drop _ _
  have hu16 : read_u16_be (file.data.drop pos) =
      Except.ok (beVal ((file.data.drop pos).take 2), (file.data.drop pos).drop 2) := by
    rw [read_u16_be, read_be, readExact, if_pos (by omega)]
  have hdl2 : (file.data.drop (pos + 2)).length = file.data.length - (pos + 2) :=
    List.length_drop _ _
  constructor
  · intro hmagic d hdef
    rw [block_step, if_neg (by omega)]
    simp only [hu16]
    rw [if_pos hmagic, if_neg (by omega), readExact, if_pos (by omega)]
    simp only [hdef]
  · intro hmagic
    rw [block_step, if_neg (by omega)]
    simp only [hu16]
    rw [if_neg hmagic, readExact, if_pos (by omega)]

/-- Claim C7 witness: block 0 of `file_c7w` has recorded size 4 and
starts with `78 DA`; with an identity Deflate backend the step returns
the two payload bytes and advances the cursor by 4. -/
theorem block_step_zlib_magic_witness :
    block_step (fun c => some c) file_c7w 0 0 = Except.ok ([7, 8], 4) :=
  (block_step_zlib_magic (fun c => some c) file_c7w 0 0 (by decide) (by decide)).1
    (by decide) [7, 8] rfl

/-- Claim C8: for an SNG stream whose 24-byte header reads successfully
with identifier `0x4A` and whose declared length covers exactly the
remaining ciphertext, the body after AES-256-CTR decryption
(`plain = ctr_decrypt iv ciphertext`) is handled by asset-flag bit 0:
when set, the plaintext after the 4-byte u32 LE uncompressed-size hint
is Zlib-decompressed to form the body (and fewer than 4 plaintext bytes
fail with `truncated`); when clear, the plaintext is the body verbatim
with no decompression step. -/
theorem new_sng_flag_branches (ctr_decrypt : Bytes → Bytes → Bytes)
    (zlib : Bytes → Option Bytes) (input : Bytes) (length : Nat) (hdr rest : Bytes)
    (hre : readExact input 24 = Except.ok (hdr, rest))
    (hid : leVal (hdr.take 4) = 0x4A)
    (hlen : length = 24 + rest.length) :
    (leVal ((hdr.drop 4).take 4) &&& 1 ≠ 0 →
      (4 ≤ (ctr_decrypt (hdr.drop 8) rest).length →
        ∀ d, zlib ((ctr_decrypt (hdr.drop 8) rest).drop 4) = some d →
          DecryptStream.new_sng ctr_decrypt zlib input length = Res.ok d)
      ∧ ((ctr_decrypt (hdr.drop 8) rest).length < 4 →
          DecryptStream.new_sng ctr_decrypt zlib input length =
            Res.err ErrKind.truncated))
    ∧ (leVal ((hdr.drop 4).take 4) &&& 1 = 0 →
        DecryptStream.new_sng ctr_decrypt zlib input length =
          Res.ok (ctr_decrypt (hdr.drop 8) rest)) := by
  have hrest : readExact rest (length - 24) = Except.ok (rest, []) := by
    have h24 : length - 24 = rest.length := by omega
    rw [readExact, if_pos (by omega), h24, List.take_length, List.drop_length]
  rw [DecryptStream.new_sng]
  simp only [hre]
  rw [if_neg (by simp [hid]), if_neg (by omega)]
  simp only [hrest]
  constructor
  · intro hbit
    rw [if_pos hbit]
    constructor
    · intro h4 d hz
      rw [if_neg (by omega)]
      simp only [hz]
    · intro hlt4
      rw [if_pos hlt4]
  · intro hbit
    rw [if_neg (by simp [hbit])]

/-- Claim C8 witness: a concrete compressed-flag SNG stream with an
identity cipher and identity decompressor: the body is the plaintext
after the 4-byte size hint. -/
theorem new_sng_flag_branches_witness :
    DecryptStream.new_sng (fun _ c => c) (fun b => some b)
      ([0x4A, 0, 0, 0, 1, 0, 0, 0, 0, 0, 0, 0, 0, 0, 0, 0, 0, 0, 0, 0, 0, 0, 0, 0] ++
        [9, 9, 9, 9, 5]) 29 = Res.ok [5] :=
  ((new_sng_flag_branches (fun _ c => c) (fun b => some b) _ 29
      [0x4A, 0, 0, 0, 1, 0, 0, 0, 0, 0, 0, 0, 0, 0, 0, 0, 0, 0, 0, 0, 0, 0, 0, 0]
      [9, 9, 9, 9, 5] (by rfl) (by rfl) (by rfl)).1 (by decide)).1 (by decide) [5] rfl

/-- Claim C9: for every successfully parsed SNG body, the three symbol
arrays are `Some` exactly when `vocals` is non-empty; when `vocals` is
empty no counted arrays are consumed for them (the parse continues at
the position reached right after `vocals`) and all three fields are
`none`; when `vocals` is non-empty the three arrays are read immediately
after `vocals` in the order headers, textures, definitions. -/
theorem sng_symbols_iff_vocals (s : Bytes) (a : SngAsset) (rest : Bytes)
    (h : SngAsset.read_body s = Except.ok (a, rest)) : SngSymbolsSpec s a := by
  simp only [SngAsset.read_body] at h
  obtain ⟨r1, h1, h⟩ := bindE_ok_inv h
  obtain ⟨r2, h2, h⟩ := bindE_ok_inv h
  obtain ⟨r3, h3, h⟩ := bindE_ok_inv h
  obtain ⟨r4, h4, h⟩ := bindE_ok_inv h
  obtain ⟨r5, h5, h⟩ := bindE_ok_inv h
  obtain ⟨r6, h6, h⟩ := bindE_ok_inv h
  obtain ⟨r7, h7, h⟩ := bindE_ok_inv h
  obtain ⟨r8, h8, h⟩ := bindE_ok_inv h
  obtain ⟨r9, h9, h⟩ := bindE_ok_inv h
  obtain ⟨r10, h10, h⟩ := bindE_ok_inv h
  obtain ⟨r11, h11, h⟩ := bindE_ok_inv h
  obtain ⟨r12, h12, h⟩ := bindE_ok_inv h
  obtain ⟨r13, h13, h⟩ := bindE_ok_inv h
  obtain ⟨r14, h14, h⟩ := bindE_ok_inv h
  obtain ⟨r15, h15, h⟩ := bindE_ok_inv h
  obtain ⟨r16, h16, h⟩ := bindE_ok_inv h
  simp only [Except.ok.injEq, Prod.mk.injEq] at h
  obtain ⟨ha, _⟩ := h
  subst ha
  cases hvl : r5.1 with
  | nil =>
    rw [hvl] at h6
    simp only [List.isEmpty_nil, if_true] at h6
    simp only [Except.ok.injEq] at h6
    subst h6
    refine ⟨by simp, r5.2,
      ⟨r1.1, r1.2, r2.1, r2.2, r3.1, r3.2, r4.1, r4.2, h1, h2, h3, h4, hvl ▸ h5⟩,
      ?_, ?_⟩
    · intro _
      exact ⟨rfl, rfl, rfl, r7.1, r7.2, h7, rfl⟩
    · intro hne
      exact absurd rfl hne
  | cons x xs =>
    rw [hvl] at h6
    simp only [List.isEmpty_cons, if_false, Bool.false_eq_true] at h6
    obtain ⟨rh, hh, h6⟩ := bindE_ok_inv h6
    obtain ⟨rt, ht, h6⟩ := bindE_ok_inv h6
    obtain ⟨rd, hd, h6⟩ := bindE_ok_inv h6
    simp only [Except.ok.injEq] at h6
    subst h6
    refine ⟨by simp [hvl], r5.2,
      ⟨r1.1, r1.2, r2.1, r2.2, r3.1, r3.2, r4.1, r4.2, h1, h2, h3, h4, hvl ▸ h5⟩,
      ?_, ?_⟩
    · intro habs
      simp at habs
    · intro _
      exact ⟨rh.1, rh.2, rt.1, rt.2, rd.1, rd.2, hh, ht, hd, rfl, rfl, rfl,
        r7.1, r7.2, h7, rfl⟩

set_option maxRecDepth 20000 in
/-- Claim C9 witness: the all-zero SNG body parses to a document with
empty `vocals` and absent symbol tables, satisfying the property. -/
theorem sng_symbols_iff_vocals_witness : SngSymbolsSpec zeroSngBody zeroSngAsset :=
  sng_symbols_iff_vocals zeroSngBody zeroSngAsset [] (by rfl)

end Psarc

